import Mathlib

/-!
Verification of the lending core of the library system (`src/main.py`).

The persistence layer is a spreadsheet: each worksheet is a grid of string
cells.  We embed a worksheet as `List (List String)` (a list of rows), with
gspread's 1-based `(row, col)` cell coordinates:

* `find q` returns the first cell whose value equals `q`, scanning rows top
  to bottom and each row left to right (`Worksheet.find`);
* `findall q` returns all such cells in that row-major order
  (`Worksheet.findall`);
* `row_values r` returns the values of row `r` (`Worksheet.row_values`);
* `update_cell r c v` writes value `v` at `(r, c)`, padding the row with
  empty cells if it is shorter than `c` columns;
* `delete_rows r` removes row `r`, shifting later rows up;
* `append_row` appends a row at the bottom.

The state holds the four worksheets used by the lending engine: `Books`,
`Users`, `Queue` and `Transactions`.  Timestamps (`datetime.now()`) and the
generated queue identifier are passed in as opaque string parameters.
-/

namespace Library

/-- A 1-based spreadsheet cell coordinate, as returned by gspread's
`find` / `findall`. -/
structure Cell where
  row : Nat
  col : Nat
deriving DecidableEq, Repr

/-- A worksheet: a list of rows of string cells. -/
abbrev Sheet := List (List String)

/-- All cells of one row (at row index `r`, starting at column `c`) whose
value equals `q`, left to right. -/
def findAllInRow (q : String) (r : Nat) : List String → Nat → List Cell
  | [], _ => []
  | v :: rest, c =>
      (if v = q then [⟨r, c⟩] else []) ++ findAllInRow q r rest (c + 1)

/-- All cells of the sheet (first row numbered `r`) whose value equals `q`,
in row-major order. -/
def findAllAux (q : String) : Sheet → Nat → List Cell
  | [], _ => []
  | row :: rest, r => findAllInRow q r row 1 ++ findAllAux q rest (r + 1)

/-- `Worksheet.findall(q)`: every cell whose value equals `q`, in row-major
order, rows and columns 1-based. -/
def findall (sheet : Sheet) (q : String) : List Cell :=
  findAllAux q sheet 1

/-- `Worksheet.find(q)`: the first matching cell in row-major order, if any. -/
def find (sheet : Sheet) (q : String) : Option Cell :=
  (findall sheet q).head?

/-- `Worksheet.row_values(r)` (1-based row index). -/
def rowValues (sheet : Sheet) (r : Nat) : List String :=
  sheet.getD (r - 1) []

/-- Pad a row with empty cells up to length `c`. -/
def padTo (row : List String) (c : Nat) : List String :=
  row ++ List.replicate (c - row.length) ""

/-- Write value `v` into (1-based) column `c` of a row, padding with empty
cells if the row is shorter than `c` columns. -/
def setCell (row : List String) (c : Nat) (v : String) : List String :=
  (padTo row c).set (c - 1) v

/-- `Worksheet.update_cell(r, c, v)` (both indices 1-based). -/
def update_cell (sheet : Sheet) (r c : Nat) (v : String) : Sheet :=
  sheet.set (r - 1) (setCell (rowValues sheet r) c v)

/-- `Worksheet.delete_rows(r)` (1-based): remove row `r`. -/
def delete_rows (sheet : Sheet) (r : Nat) : Sheet :=
  sheet.eraseIdx (r - 1)

/-- Python's `min(cells, key=lambda c: c.row)` on a nonempty list: the first
cell achieving the smallest row number (`min` keeps the earlier element on
ties). -/
def pyMinRow (c : Cell) (rest : List Cell) : Cell :=
  rest.foldl (fun b x => if x.row < b.row then x else b) c

/-- The full mutable state of the lending engine: the four worksheets. -/
structure LibState where
  books : Sheet
  users : Sheet
  queue : Sheet
  trans : Sheet
deriving DecidableEq, Repr

/-- `get_student_name(student_id)`: look the id up in the `Users` sheet and
return the value of column 2 of its row, `"Unknown"` when absent. -/
def get_student_name (s : LibState) (student_id : String) : String :=
  match find s.users student_id with
  | some cell => (rowValues s.users cell.row).getD 1 ""
  | none => "Unknown"

/-- The five `update_cell` writes of columns 4–8 (status, holder id, holder
name, next-in-line id, next-in-line name) applied to a single row. -/
def writeStatus (row : List String) (st hid hname nid nname : String) :
    List String :=
  setCell (setCell (setCell (setCell (setCell row 4 st) 5 hid) 6 hname)
    7 nid) 8 nname

/-- Python's `str.strip()`: drop whitespace from both ends.  (Defined over
the character list so that it is kernel-executable.) -/
def pyStrip (s : String) : String :=
  ⟨(((s.data.dropWhile Char.isWhitespace).reverse.dropWhile
    Char.isWhitespace).reverse)⟩

/-- The stored password read by `borrow_book`:
`str(user_row[2]) if len(user_row) > 2 else ""`. -/
def storedPassword (user_row : List String) : String :=
  if 2 < user_row.length then user_row.getD 2 "" else ""

/-- The status read by `borrow_book`:
`row_data[3] if len(row_data) > 3 else "Unknown"`. -/
def bookStatus (row_data : List String) : String :=
  if 3 < row_data.length then row_data.getD 3 "" else "Unknown"

/-- The next-in-line id read by `borrow_book`:
`row_data[6] if len(row_data) > 6 else ""`. -/
def bookNextId (row_data : List String) : String :=
  if 6 < row_data.length then row_data.getD 6 "" else ""

/-- Outcome of the borrow endpoint (`POST /borrow`). -/
inductive BorrowOutcome where
  /-- `"找無此學生ID"`: the student id was not found in `Users`. -/
  | studentNotFound
  /-- `"密碼錯誤"`: the supplied password does not match the stored one. -/
  | wrongPassword
  /-- The book id was not found in `Books` (HTTP 404 raised, then caught by
  the generic handler and surfaced as an error payload). -/
  | bookNotFound
  /-- `"這本書已被借走，請選擇排隊。"` with `can_queue: True`. -/
  | unavailableCanQueue
  /-- `"這本書目前保留給同學 …"` naming the next-in-line id. -/
  | reservedForOther (nid : String)
  /-- `"借閱成功！"` with the book's title. -/
  | success (title : String)
  /-- The success message raised `IndexError` (`row_data[2]` on a row with
  fewer than three cells) after the mutations, surfacing a generic error. -/
  | indexError
deriving DecidableEq, Repr

/-- `borrow_book` (`POST /borrow`): validate the student and password, find
the book, branch on its status, and on proceed write columns 4–8 of the
book's row and append a Borrow transaction. -/
def borrow_book (s : LibState) (book_id student_id password now : String) :
    BorrowOutcome × LibState :=
  match find s.users student_id with
  | none => (.studentNotFound, s)
  | some ucell =>
    let user_row := rowValues s.users ucell.row
    let stored_password := storedPassword user_row
    if pyStrip password = pyStrip stored_password then
      match find s.books book_id with
      | none => (.bookNotFound, s)
      | some cell =>
        let row_data := rowValues s.books cell.row
        let current_status := bookStatus row_data
        let next_in_line_id := bookNextId row_data
        if current_status = "Borrowed" then
          (.unavailableCanQueue, s)
        else if current_status = "Reserved" ∧ student_id ≠ next_in_line_id then
          (.reservedForOther next_in_line_id, s)
        else
          let student_name := get_student_name s student_id
          let books5 :=
            update_cell (update_cell (update_cell (update_cell
              (update_cell s.books cell.row 4 "Borrowed")
              cell.row 5 student_id) cell.row 6 student_name)
              cell.row 7 "") cell.row 8 ""
          let trans1 := s.trans ++ [[now, "Borrow", book_id, student_id]]
          let s1 : LibState := { s with books := books5, trans := trans1 }
          if 2 < row_data.length then
            (.success (row_data.getD 2 ""), s1)
          else
            (.indexError, s1)
    else (.wrongPassword, s)

/-- Outcome of the return endpoint (`POST /return`). -/
inductive ReturnOutcome where
  /-- The book id was not found in `Books`. -/
  | bookNotFound
  /-- `"還書成功！此書已保留給排隊同學…"`: someone was waiting; the book is
  reserved for them. -/
  | promoted (nid nname : String)
  /-- `"還書成功，謝謝！"`: nobody was waiting; the book is available again. -/
  | nowAvailable
  /-- `queue_row_data[2]` raised `IndexError` (the matched queue row has
  fewer than three cells), before any mutation. -/
  | indexError
deriving DecidableEq, Repr

/-- `return_book` (`POST /return`): find the book, look for waiting entries
(`Queue.findall(book_id)`), and either promote the earliest-row entry to
`Reserved` and delete its queue row, or mark the book `Available`; in both
branches append a Return transaction. -/
def return_book (s : LibState) (book_id student_id now : String) :
    ReturnOutcome × LibState :=
  match find s.books book_id with
  | none => (.bookNotFound, s)
  | some cell =>
    match findall s.queue book_id with
    | fq0 :: qrest =>
      let first_queue_cell := pyMinRow fq0 qrest
      let queue_row_data := rowValues s.queue first_queue_cell.row
      if 2 < queue_row_data.length then
        let next_student_id := queue_row_data.getD 2 ""
        let next_student_name := get_student_name s next_student_id
        let books5 :=
          update_cell (update_cell (update_cell (update_cell
            (update_cell s.books cell.row 4 "Reserved")
            cell.row 5 "") cell.row 6 "") cell.row 7 next_student_id)
            cell.row 8 next_student_name
        let queue1 := delete_rows s.queue first_queue_cell.row
        let trans1 := s.trans ++ [[now, "Return", book_id, student_id]]
        (.promoted next_student_id next_student_name,
          { s with books := books5, queue := queue1, trans := trans1 })
      else
        (.indexError, s)
    | [] =>
      let books5 :=
        update_cell (update_cell (update_cell (update_cell
          (update_cell s.books cell.row 4 "Available")
          cell.row 5 "") cell.row 6 "") cell.row 7 "") cell.row 8 ""
      let trans1 := s.trans ++ [[now, "Return", book_id, student_id]]
      (.nowAvailable, { s with books := books5, trans := trans1 })

/-- Outcome of the queue endpoint (`POST /queue`). -/
inductive QueueOutcome where
  /-- The book id was not found in `Books`. -/
  | bookNotFound
  /-- `"排隊成功！您目前是第 … 順位。"` with the 1-based position. -/
  | success (position : Nat)
deriving DecidableEq, Repr

/-- `join_queue` (`POST /queue`): find the book, append a queue row
`[queue_id, book_id, student_id, time]`, and report
`len(Queue.findall(book_id))` after the append as the position. -/
def join_queue (s : LibState) (book_id student_id queue_id now : String) :
    QueueOutcome × LibState :=
  match find s.books book_id with
  | none => (.bookNotFound, s)
  | some _ =>
    let queue1 := s.queue ++ [[queue_id, book_id, student_id, now]]
    let queue_count := (findall queue1 book_id).length
    (.success queue_count, { s with queue := queue1 })

/-! ### Well-formedness and the lending-state invariant -/

/-- The value `q` occurs in the row only at (0-based) index `k`.  This is the
shape of a well-formed sheet whose `q`-column is column `k + 1`: book
identifiers live in column 1 of `Books`, in column 2 of `Queue`. -/
def OnlyAtIdx (k : Nat) (q : String) (row : List String) : Prop :=
  ∀ j, row[j]? = some q → j = k

/-- The current-holder fields (columns 5 and 6) of a book row are populated. -/
def holderPopulated (row : List String) : Prop :=
  row.getD 4 "" ≠ "" ∧ row.getD 5 "" ≠ ""

/-- The reservation-target fields (columns 7 and 8) of a book row are
populated. -/
def reservationPopulated (row : List String) : Prop :=
  row.getD 6 "" ≠ "" ∧ row.getD 7 "" ≠ ""

/-- The lending-state invariant of a single book row: status `Borrowed` iff
the holder fields are populated, status `Reserved` iff the reservation
fields are populated, and never both at once. -/
def BookRowInv (row : List String) : Prop :=
  (row.getD 3 "" = "Borrowed" ↔ holderPopulated row) ∧
  (row.getD 3 "" = "Reserved" ↔ reservationPopulated row) ∧
  ¬ (holderPopulated row ∧ reservationPopulated row)

/-- Well-formed engine state: every user row has a nonempty display name,
every waiting-list row has a nonempty student id (column 3), and every book
row satisfies the lending-state invariant. -/
def StateWF (s : LibState) : Prop :=
  (∀ urow ∈ s.users, urow.getD 1 "" ≠ "") ∧
  (∀ qrow ∈ s.queue, qrow.getD 2 "" ≠ "") ∧
  (∀ brow ∈ s.books, BookRowInv brow)

instance (s : LibState) : Decidable (StateWF s) := by
  unfold StateWF BookRowInv holderPopulated reservationPopulated
  infer_instance

/-- One call to one of the three lending-engine endpoints. -/
inductive Op where
  | borrow (book_id student_id password now : String)
  | ret (book_id student_id now : String)
  | enqueue (book_id student_id queue_id now : String)
deriving DecidableEq, Repr

/-- The state reached after one endpoint call (the returned payload is
dropped). -/
def applyOp (s : LibState) : Op → LibState
  | .borrow b u p n => (borrow_book s b u p n).2
  | .ret b u n => (return_book s b u n).2
  | .enqueue b u q n => (join_queue s b u q n).2

/-- The acting student id of an operation is nonempty. -/
def OpWF : Op → Prop
  | .borrow _ u _ _ => u ≠ ""
  | .ret _ _ _ => True
  | .enqueue _ u _ _ => u ≠ ""

instance : DecidablePred OpWF
  | .borrow _ _ _ _ => by unfold OpWF; infer_instance
  | .ret _ _ _ => by unfold OpWF; infer_instance
  | .enqueue _ _ _ _ => by unfold OpWF; infer_instance

/-- The state after a sequence of endpoint calls. -/
def runOps (s : LibState) (ops : List Op) : LibState :=
  ops.foldl applyOp s

/-! ### Basic lemmas about rows and cell writes -/

theorem padTo_length (row : List String) (c : Nat) :
    (padTo row c).length = max row.length c := by
  simp [padTo]
  omega

theorem padTo_getD (row : List String) (c j : Nat) :
    (padTo row c).getD j "" = row.getD j "" := by
  unfold padTo
  rw [List.getD_eq_getElem?_getD, List.getD_eq_getElem?_getD,
    List.getElem?_append]
  by_cases h : j < row.length
  · simp [h]
  · rw [if_neg h]
    rw [List.getElem?_replicate]
    have h2 : row[j]? = none := List.getElem?_eq_none (by omega)
    by_cases h3 : j - row.length < c - row.length <;> simp [h3, h2]

theorem setCell_length (row : List String) (c : Nat) (v : String) :
    (setCell row c v).length = max row.length c := by
  simp [setCell, padTo_length]

theorem setCell_getD_self (row : List String) (c : Nat) (v : String)
    (hc : 1 ≤ c) : (setCell row c v).getD (c - 1) "" = v := by
  unfold setCell
  rw [List.getD_eq_getElem?_getD, List.getElem?_set_self]
  · rfl
  · rw [padTo_length]; omega

theorem setCell_getD_ne (row : List String) (c : Nat) (v : String)
    (j : Nat) (hj : j ≠ c - 1) : (setCell row c v).getD j "" = row.getD j "" := by
  unfold setCell
  rw [List.getD_eq_getElem?_getD, List.getElem?_set_ne (Ne.symm hj),
    ← List.getD_eq_getElem?_getD, padTo_getD]

theorem writeStatus_length (row : List String) (a b c d e : String) :
    8 ≤ (writeStatus row a b c d e).length := by
  simp [writeStatus, setCell_length]

theorem writeStatus_getD (row : List String) (a b c d e : String) :
    (writeStatus row a b c d e).getD 3 "" = a ∧
    (writeStatus row a b c d e).getD 4 "" = b ∧
    (writeStatus row a b c d e).getD 5 "" = c ∧
    (writeStatus row a b c d e).getD 6 "" = d ∧
    (writeStatus row a b c d e).getD 7 "" = e := by
  unfold writeStatus
  refine ⟨?_, ?_, ?_, ?_, ?_⟩
  · rw [setCell_getD_ne _ _ _ _ (by omega), setCell_getD_ne _ _ _ _ (by omega),
      setCell_getD_ne _ _ _ _ (by omega), setCell_getD_ne _ _ _ _ (by omega)]
    exact setCell_getD_self _ _ _ (by omega)
  · rw [setCell_getD_ne _ _ _ _ (by omega), setCell_getD_ne _ _ _ _ (by omega),
      setCell_getD_ne _ _ _ _ (by omega)]
    exact setCell_getD_self _ _ _ (by omega)
  · rw [setCell_getD_ne _ _ _ _ (by omega), setCell_getD_ne _ _ _ _ (by omega)]
    exact setCell_getD_self _ _ _ (by omega)
  · rw [setCell_getD_ne _ _ _ _ (by omega)]
    exact setCell_getD_self _ _ _ (by omega)
  · exact setCell_getD_self _ _ _ (by omega)

theorem writeStatus_getD_low (row : List String) (a b c d e : String)
    (j : Nat) (hj : j < 3) :
    (writeStatus row a b c d e).getD j "" = row.getD j "" := by
  unfold writeStatus
  rw [setCell_getD_ne _ _ _ _ (by omega), setCell_getD_ne _ _ _ _ (by omega),
    setCell_getD_ne _ _ _ _ (by omega), setCell_getD_ne _ _ _ _ (by omega),
    setCell_getD_ne _ _ _ _ (by omega)]

theorem rowValues_set_self (sheet : Sheet) (r : Nat) (x : List String)
    (h : r - 1 < sheet.length) :
    rowValues (sheet.set (r - 1) x) r = x := by
  unfold rowValues
  rw [List.getD_eq_getElem?_getD, List.getElem?_set_self h]
  rfl

/-- The five `update_cell` writes of columns 4–8 on one row collapse to a
single `List.set` with `writeStatus`. -/
theorem update5_eq (sheet : Sheet) (r : Nat) (h : r - 1 < sheet.length)
    (a b c d e : String) :
    update_cell (update_cell (update_cell (update_cell
      (update_cell sheet r 4 a) r 5 b) r 6 c) r 7 d) r 8 e
    = sheet.set (r - 1) (writeStatus (rowValues sheet r) a b c d e) := by
  have h1 : r - 1 < (sheet.set (r - 1) (setCell (rowValues sheet r) 4 a)).length := by
    simpa using h
  unfold update_cell writeStatus
  rw [rowValues_set_self _ _ _ h, List.set_set]
  rw [rowValues_set_self _ _ _ (by simpa using h), List.set_set]
  rw [rowValues_set_self _ _ _ (by simpa using h), List.set_set]
  rw [rowValues_set_self _ _ _ (by simpa using h), List.set_set]

/-! ### Structure of `findall` on well-formed sheets -/

theorem findAllInRow_eq_nil (q : String) (row : List String)
    (h : q ∉ row) : ∀ r c, findAllInRow q r row c = [] := by
  induction row with
  | nil => intro r c; rfl
  | cons a rest ih =>
    intro r c
    have ha : ¬ a = q := fun hq => h (hq ▸ List.mem_cons_self a rest)
    simp only [findAllInRow, if_neg ha, List.nil_append]
    exact ih (fun hm => h (List.mem_cons_of_mem a hm)) r (c + 1)

theorem findAllInRow_row_eq (q : String) (row : List String) :
    ∀ r c cell, cell ∈ findAllInRow q r row c → cell.row = r := by
  induction row with
  | nil => intro r c cell h; simp [findAllInRow] at h
  | cons a rest ih =>
    intro r c cell h
    simp only [findAllInRow] at h
    rcases List.mem_append.mp h with h1 | h2
    · by_cases ha : a = q
      · rw [if_pos ha] at h1
        simp only [List.mem_singleton] at h1
        rw [h1]
      · rw [if_neg ha] at h1
        simp at h1
    · exact ih r (c + 1) cell h2

theorem findAllInRow_ne_nil (q : String) (row : List String)
    (h : q ∈ row) : ∀ r c, findAllInRow q r row c ≠ [] := by
  induction row with
  | nil => cases h
  | cons a rest ih =>
    intro r c
    simp only [findAllInRow]
    by_cases ha : a = q
    · rw [if_pos ha]; simp
    · rw [if_neg ha]
      simp only [List.nil_append]
      have hm : q ∈ rest := by
        rcases List.mem_cons.mp h with h1 | h2
        · exact absurd h1.symm ha
        · exact h2
      exact ih hm r (c + 1)

theorem findAllInRow_onlyAt (q : String) :
    ∀ (row : List String) (k : Nat), OnlyAtIdx k q row → ∀ r c,
      findAllInRow q r row c =
        if row[k]? = some q then [⟨r, k + c⟩] else [] := by
  intro row
  induction row with
  | nil =>
    intro k _ r c
    simp [findAllInRow]
  | cons a rest ih =>
    intro k hwf r c
    match k with
    | 0 =>
      have hrest : q ∉ rest := by
        intro hm
        rcases List.mem_iff_getElem?.mp hm with ⟨j, hj⟩
        have := hwf (j + 1) (by simpa using hj)
        omega
      simp only [findAllInRow, findAllInRow_eq_nil q rest hrest,
        List.append_nil, List.getElem?_cons_zero]
      by_cases ha : a = q
      · rw [if_pos ha, if_pos (by rw [ha])]
        simp
      · rw [if_neg ha, if_neg (by simpa using ha)]
    | k + 1 =>
      have ha : ¬ a = q := by
        intro hq
        have := hwf 0 (by simpa using hq)
        omega
      have hrest : OnlyAtIdx k q rest := by
        intro j hj
        have := hwf (j + 1) (by simpa using hj)
        omega
      simp only [findAllInRow, if_neg ha, List.nil_append,
        ih k hrest r (c + 1), List.getElem?_cons_succ]
      by_cases hk : rest[k]? = some q
      · rw [if_pos hk, if_pos hk]
        have : k + (c + 1) = k + 1 + c := by omega
        rw [this]
      · rw [if_neg hk, if_neg hk]

theorem findAllAux_append (q : String) :
    ∀ (xs ys : Sheet) (r : Nat),
      findAllAux q (xs ++ ys) r =
        findAllAux q xs r ++ findAllAux q ys (r + xs.length) := by
  intro xs
  induction xs with
  | nil => intro ys r; simp [findAllAux]
  | cons row rest ih =>
    intro ys r
    have harith : r + 1 + rest.length = r + (rest.length + 1) := by omega
    show findAllInRow q r row 1 ++ findAllAux q (rest ++ ys) (r + 1) =
      findAllInRow q r row 1 ++ findAllAux q rest (r + 1) ++
        findAllAux q ys (r + (rest.length + 1))
    rw [ih ys (r + 1), ← List.append_assoc, harith]

theorem findAllAux_eq_nil (q : String) :
    ∀ (sheet : Sheet), (∀ row ∈ sheet, q ∉ row) → ∀ r,
      findAllAux q sheet r = [] := by
  intro sheet
  induction sheet with
  | nil => intro _ r; rfl
  | cons row rest ih =>
    intro h r
    simp only [findAllAux,
      findAllInRow_eq_nil q row (h row (List.mem_cons_self _ _)) r 1,
      List.nil_append]
    exact ih (fun x hx => h x (List.mem_cons_of_mem _ hx)) (r + 1)

theorem findAllAux_row_ge (q : String) :
    ∀ (sheet : Sheet) (r : Nat) (cell : Cell),
      cell ∈ findAllAux q sheet r → r ≤ cell.row := by
  intro sheet
  induction sheet with
  | nil => intro r cell h; simp [findAllAux] at h
  | cons row rest ih =>
    intro r cell h
    simp only [findAllAux] at h
    rcases List.mem_append.mp h with h1 | h2
    · rw [findAllInRow_row_eq q row r 1 cell h1]
    · have := ih (r + 1) cell h2
      omega

theorem findAllAux_row_lt (q : String) :
    ∀ (sheet : Sheet) (r : Nat) (cell : Cell),
      cell ∈ findAllAux q sheet r → cell.row < r + sheet.length := by
  intro sheet
  induction sheet with
  | nil => intro r cell h; simp [findAllAux] at h
  | cons row rest ih =>
    intro r cell h
    simp only [findAllAux] at h
    rcases List.mem_append.mp h with h1 | h2
    · rw [findAllInRow_row_eq q row r 1 cell h1]
      simp
    · have := ih (r + 1) cell h2
      simp only [List.length_cons]
      omega

theorem findAllAux_length_onlyAt (q : String) (k : Nat) :
    ∀ (sheet : Sheet), (∀ row ∈ sheet, OnlyAtIdx k q row) → ∀ r,
      (findAllAux q sheet r).length =
        sheet.countP (fun row => row[k]? == some q) := by
  intro sheet
  induction sheet with
  | nil => intro _ r; rfl
  | cons row rest ih =>
    intro h r
    simp only [findAllAux, List.length_append, List.countP_cons,
      findAllInRow_onlyAt q row k (h row (List.mem_cons_self _ _)) r 1,
      ih (fun x hx => h x (List.mem_cons_of_mem _ hx)) (r + 1)]
    by_cases hk : row[k]? = some q
    · rw [if_pos hk, if_pos (by simpa using hk)]
      simp only [List.length_singleton]
      omega
    · rw [if_neg hk, if_neg (by simpa using hk)]
      simp only [List.length_nil]
      omega

/-! ### Python `min` on cells -/

theorem pyMinRow_eq_self (c : Cell) (rest : List Cell)
    (h : ∀ x ∈ rest, ¬ x.row < c.row) : pyMinRow c rest = c := by
  unfold pyMinRow
  induction rest with
  | nil => rfl
  | cons x xs ih =>
    simp only [List.foldl_cons, if_neg (h x (List.mem_cons_self _ _))]
    exact ih (fun y hy => h y (List.mem_cons_of_mem _ hy))

theorem pyMinRow_mem (c : Cell) (rest : List Cell) :
    pyMinRow c rest ∈ c :: rest := by
  unfold pyMinRow
  induction rest generalizing c with
  | nil => simp
  | cons x xs ih =>
    simp only [List.foldl_cons]
    rcases List.mem_cons.mp (ih (if x.row < c.row then x else c)) with h1 | h2
    · rw [h1]
      by_cases hx : x.row < c.row
      · rw [if_pos hx]; simp
      · rw [if_neg hx]; simp
    · simp [List.mem_cons_of_mem, h2]

/-! ### Consequences for `find` -/

theorem find_bounds (sheet : Sheet) (q : String) (cell : Cell)
    (h : find sheet q = some cell) :
    1 ≤ cell.row ∧ cell.row - 1 < sheet.length := by
  have hmem : cell ∈ findall sheet q := by
    rcases List.head?_eq_some_iff.mp h with ⟨ys, hys⟩
    rw [hys]
    simp
  have h1 := findAllAux_row_ge q sheet 1 cell hmem
  have h2 := findAllAux_row_lt q sheet 1 cell hmem
  omega

theorem rowValues_mem_of_find (sheet : Sheet) (q : String) (cell : Cell)
    (h : find sheet q = some cell) : rowValues sheet cell.row ∈ sheet := by
  have hb := find_bounds sheet q cell h
  unfold rowValues
  rw [List.getD_eq_getElem?_getD, List.getElem?_eq_getElem hb.2]
  exact List.getElem_mem hb.2

theorem eraseIdx_append_cons (pre post : Sheet) (row : List String) :
    (pre ++ row :: post).eraseIdx pre.length = pre ++ post := by
  induction pre with
  | nil => rfl
  | cons x xs ih => simp [List.eraseIdx, ih]

theorem rowValues_mem_of_mem_findall (sheet : Sheet) (q : String)
    (cell : Cell) (h : cell ∈ findall sheet q) :
    rowValues sheet cell.row ∈ sheet := by
  have h1 := findAllAux_row_ge q sheet 1 cell h
  have h2 := findAllAux_row_lt q sheet 1 cell h
  unfold rowValues
  rw [List.getD_eq_getElem?_getD, List.getElem?_eq_getElem (by omega)]
  exact List.getElem_mem _

theorem onlyAtIdx_iff (k : Nat) (q : String) (row : List String) :
    OnlyAtIdx k q row ↔ ∀ j < row.length, row[j]? = some q → j = k := by
  constructor
  · intro h j _ hj
    exact h j hj
  · intro h j hj
    by_cases hlt : j < row.length
    · exact h j hlt hj
    · rw [List.getElem?_eq_none (by omega)] at hj
      cases hj

theorem get_student_name_ne_empty (s : LibState) (student_id : String)
    (hus : ∀ urow ∈ s.users, urow.getD 1 "" ≠ "") :
    get_student_name s student_id ≠ "" := by
  cases hfind : find s.users student_id with
  | none => simp [get_student_name, hfind]
  | some c =>
    have h := hus _ (rowValues_mem_of_find s.users student_id c hfind)
    simpa [get_student_name, hfind] using h

/-! ### Path equations of the borrow endpoint -/

theorem borrow_book_user_none (s : LibState) (book_id student_id password now : String)
    (hu : find s.users student_id = none) :
    borrow_book s book_id student_id password now = (.studentNotFound, s) := by
  simp [borrow_book, hu]

theorem borrow_book_wrong_password (s : LibState)
    (book_id student_id password now : String) (ucell : Cell)
    (hu : find s.users student_id = some ucell)
    (hpw : pyStrip password ≠ pyStrip (storedPassword (rowValues s.users ucell.row))) :
    borrow_book s book_id student_id password now = (.wrongPassword, s) := by
  simp [borrow_book, hu, hpw]

theorem borrow_book_book_none (s : LibState)
    (book_id student_id password now : String) (ucell : Cell)
    (hu : find s.users student_id = some ucell)
    (hpw : pyStrip password = pyStrip (storedPassword (rowValues s.users ucell.row)))
    (hb : find s.books book_id = none) :
    borrow_book s book_id student_id password now = (.bookNotFound, s) := by
  simp [borrow_book, hu, hpw, hb]

theorem borrow_book_borrowed (s : LibState)
    (book_id student_id password now : String) (ucell cell : Cell)
    (hu : find s.users student_id = some ucell)
    (hpw : pyStrip password = pyStrip (storedPassword (rowValues s.users ucell.row)))
    (hb : find s.books book_id = some cell)
    (hst : bookStatus (rowValues s.books cell.row) = "Borrowed") :
    borrow_book s book_id student_id password now = (.unavailableCanQueue, s) := by
  simp [borrow_book, hu, hpw, hb, hst]

theorem borrow_book_reserved_other (s : LibState)
    (book_id student_id password now : String) (ucell cell : Cell)
    (hu : find s.users student_id = some ucell)
    (hpw : pyStrip password = pyStrip (storedPassword (rowValues s.users ucell.row)))
    (hb : find s.books book_id = some cell)
    (hst : bookStatus (rowValues s.books cell.row) = "Reserved")
    (hne : student_id ≠ bookNextId (rowValues s.books cell.row)) :
    borrow_book s book_id student_id password now =
      (.reservedForOther (bookNextId (rowValues s.books cell.row)), s) := by
  simp [borrow_book, hu, hpw, hb, hst, hne]

theorem borrow_book_proceed (s : LibState)
    (book_id student_id password now : String) (ucell cell : Cell)
    (hu : find s.users student_id = some ucell)
    (hpw : pyStrip password = pyStrip (storedPassword (rowValues s.users ucell.row)))
    (hb : find s.books book_id = some cell)
    (hnb : bookStatus (rowValues s.books cell.row) ≠ "Borrowed")
    (hnr : ¬ (bookStatus (rowValues s.books cell.row) = "Reserved" ∧
      student_id ≠ bookNextId (rowValues s.books cell.row))) :
    borrow_book s book_id student_id password now =
      ((if 2 < (rowValues s.books cell.row).length then
          .success ((rowValues s.books cell.row).getD 2 "")
        else .indexError),
       { s with
           books := s.books.set (cell.row - 1)
             (writeStatus (rowValues s.books cell.row) "Borrowed" student_id
               (get_student_name s student_id) "" ""),
           trans := s.trans ++ [[now, "Borrow", book_id, student_id]] }) := by
  have hbound := (find_bounds s.books book_id cell hb).2
  have h5 := update5_eq s.books cell.row hbound "Borrowed" student_id
    (get_student_name s student_id) "" ""
  simp only [borrow_book, hu, if_pos hpw, hb, if_neg hnb, if_neg hnr, h5]
  split <;> rfl

/-! ### Path equations of the return endpoint -/

theorem return_book_book_none (s : LibState) (book_id student_id now : String)
    (hb : find s.books book_id = none) :
    return_book s book_id student_id now = (.bookNotFound, s) := by
  simp [return_book, hb]

theorem return_book_empty_queue (s : LibState) (book_id student_id now : String)
    (cell : Cell) (hb : find s.books book_id = some cell)
    (hq : findall s.queue book_id = []) :
    return_book s book_id student_id now =
      (.nowAvailable,
       { s with
           books := s.books.set (cell.row - 1)
             (writeStatus (rowValues s.books cell.row) "Available" "" "" "" ""),
           trans := s.trans ++ [[now, "Return", book_id, student_id]] }) := by
  have hbound := (find_bounds s.books book_id cell hb).2
  have h5 := update5_eq s.books cell.row hbound "Available" "" "" "" ""
  simp only [return_book, hb, hq, h5]

/-- On a well-formed waiting list (`book_id` occurs only in column 2 of its
rows), decomposing the queue at its first entry for `book_id` describes the
promotion path completely: the first entry's student is promoted and exactly
its row is deleted. -/
theorem return_book_promote (s : LibState) (book_id student_id now : String)
    (cell : Cell) (pre post : Sheet) (row : List String)
    (hb : find s.books book_id = some cell)
    (hq : s.queue = pre ++ row :: post)
    (hpre : ∀ r ∈ pre, book_id ∉ r)
    (hrowwf : OnlyAtIdx 1 book_id row)
    (hrow : row[1]? = some book_id)
    (hlen : 3 ≤ row.length) :
    return_book s book_id student_id now =
      (.promoted (row.getD 2 "") (get_student_name s (row.getD 2 "")),
       { s with
           books := s.books.set (cell.row - 1)
             (writeStatus (rowValues s.books cell.row) "Reserved" "" ""
               (row.getD 2 "") (get_student_name s (row.getD 2 ""))),
           queue := pre ++ post,
           trans := s.trans ++ [[now, "Return", book_id, student_id]] }) := by
  have hfq : findall s.queue book_id =
      ⟨1 + pre.length, 2⟩ :: findAllAux book_id post (1 + pre.length + 1) := by
    rw [hq]
    unfold findall
    rw [findAllAux_append book_id pre (row :: post) 1,
      findAllAux_eq_nil book_id pre hpre 1]
    show findAllInRow book_id (1 + pre.length) row 1 ++
      findAllAux book_id post (1 + pre.length + 1) = _
    rw [findAllInRow_onlyAt book_id row 1 hrowwf (1 + pre.length) 1,
      if_pos hrow]
    rfl
  have hmin : pyMinRow ⟨1 + pre.length, 2⟩
      (findAllAux book_id post (1 + pre.length + 1)) = ⟨1 + pre.length, 2⟩ := by
    apply pyMinRow_eq_self
    intro x hx
    have := findAllAux_row_ge book_id post (1 + pre.length + 1) x hx
    show ¬ x.row < 1 + pre.length
    omega
  have hrv : rowValues s.queue (1 + pre.length) = row := by
    rw [hq]
    unfold rowValues
    have h1 : 1 + pre.length - 1 = pre.length := by omega
    rw [h1, List.getD_eq_getElem?_getD,
      List.getElem?_append_right (Nat.le_refl pre.length), Nat.sub_self]
    simp
  have hdel : delete_rows s.queue (1 + pre.length) = pre ++ post := by
    rw [hq]
    unfold delete_rows
    have h1 : 1 + pre.length - 1 = pre.length := by omega
    rw [h1, eraseIdx_append_cons]
  have hbound := (find_bounds s.books book_id cell hb).2
  have h5 := update5_eq s.books cell.row hbound "Reserved" "" ""
    (row.getD 2 "") (get_student_name s (row.getD 2 ""))
  simp only [return_book, hb, hfq, hmin, hrv, h5, hdel, if_pos (by omega : 2 < row.length)]

/-! ### Path equations of the queue endpoint -/

theorem join_queue_book_none (s : LibState) (book_id student_id queue_id now : String)
    (hb : find s.books book_id = none) :
    join_queue s book_id student_id queue_id now = (.bookNotFound, s) := by
  simp [join_queue, hb]

theorem join_queue_found (s : LibState) (book_id student_id queue_id now : String)
    (cell : Cell) (hb : find s.books book_id = some cell) :
    join_queue s book_id student_id queue_id now =
      (.success ((findall (s.queue ++ [[queue_id, book_id, student_id, now]]) book_id).length),
       { s with queue := s.queue ++ [[queue_id, book_id, student_id, now]] }) := by
  simp [join_queue, hb]

/-! ### Preservation of the lending-state invariant -/

theorem bookRowInv_borrowed (row : List String) (hid hname : String)
    (h4 : hid ≠ "") (h5 : hname ≠ "") :
    BookRowInv (writeStatus row "Borrowed" hid hname "" "") := by
  obtain ⟨g3, g4, g5, g6, g7⟩ := writeStatus_getD row "Borrowed" hid hname "" ""
  unfold BookRowInv holderPopulated reservationPopulated
  rw [g3, g4, g5, g6, g7]
  exact ⟨⟨fun _ => ⟨h4, h5⟩, fun _ => rfl⟩,
    ⟨fun h => absurd h (by decide), fun h => absurd rfl h.1⟩,
    fun h => absurd rfl h.2.1⟩

theorem bookRowInv_reserved (row : List String) (nid nname : String)
    (h6 : nid ≠ "") (h7 : nname ≠ "") :
    BookRowInv (writeStatus row "Reserved" "" "" nid nname) := by
  obtain ⟨g3, g4, g5, g6, g7⟩ := writeStatus_getD row "Reserved" "" "" nid nname
  unfold BookRowInv holderPopulated reservationPopulated
  rw [g3, g4, g5, g6, g7]
  exact ⟨⟨fun h => absurd h (by decide), fun h => absurd rfl h.1⟩,
    ⟨fun _ => ⟨h6, h7⟩, fun _ => rfl⟩,
    fun h => absurd rfl h.1.1⟩

theorem bookRowInv_available (row : List String) :
    BookRowInv (writeStatus row "Available" "" "" "" "") := by
  obtain ⟨g3, g4, g5, g6, g7⟩ := writeStatus_getD row "Available" "" "" "" ""
  unfold BookRowInv holderPopulated reservationPopulated
  rw [g3, g4, g5, g6, g7]
  exact ⟨⟨fun h => absurd h (by decide), fun h => absurd rfl h.1⟩,
    ⟨fun h => absurd h (by decide), fun h => absurd rfl h.1⟩,
    fun h => absurd rfl h.1.1⟩

theorem stateWF_borrow (s : LibState) (book_id student_id password now : String)
    (hs : StateWF s) (hu0 : student_id ≠ "") :
    StateWF (borrow_book s book_id student_id password now).2 := by
  cases hu : find s.users student_id with
  | none =>
    rw [borrow_book_user_none s book_id student_id password now hu]
    exact hs
  | some ucell =>
    by_cases hpw : pyStrip password = pyStrip (storedPassword (rowValues s.users ucell.row))
    · cases hb : find s.books book_id with
      | none =>
        rw [borrow_book_book_none s book_id student_id password now ucell hu hpw hb]
        exact hs
      | some cell =>
        by_cases hst : bookStatus (rowValues s.books cell.row) = "Borrowed"
        · rw [borrow_book_borrowed s book_id student_id password now ucell cell hu hpw hb hst]
          exact hs
        · by_cases hr : bookStatus (rowValues s.books cell.row) = "Reserved" ∧
            student_id ≠ bookNextId (rowValues s.books cell.row)
          · rw [borrow_book_reserved_other s book_id student_id password now ucell cell
              hu hpw hb hr.1 hr.2]
            exact hs
          · rw [borrow_book_proceed s book_id student_id password now ucell cell
              hu hpw hb hst hr]
            refine ⟨hs.1, hs.2.1, ?_⟩
            intro brow hmem
            rcases List.mem_or_eq_of_mem_set hmem with hold | hnew
            · exact hs.2.2 brow hold
            · rw [hnew]
              exact bookRowInv_borrowed _ _ _ hu0
                (get_student_name_ne_empty s student_id hs.1)
    · rw [borrow_book_wrong_password s book_id student_id password now ucell hu hpw]
      exact hs

theorem stateWF_return (s : LibState) (book_id student_id now : String)
    (hs : StateWF s) :
    StateWF (return_book s book_id student_id now).2 := by
  cases hb : find s.books book_id with
  | none =>
    rw [return_book_book_none s book_id student_id now hb]
    exact hs
  | some cell =>
    cases hfq : findall s.queue book_id with
    | nil =>
      rw [return_book_empty_queue s book_id student_id now cell hb hfq]
      refine ⟨hs.1, hs.2.1, ?_⟩
      intro brow hmem
      rcases List.mem_or_eq_of_mem_set hmem with hold | hnew
      · exact hs.2.2 brow hold
      · rw [hnew]
        exact bookRowInv_available _
    | cons fq0 qrest =>
      have hmem : pyMinRow fq0 qrest ∈ findall s.queue book_id := by
        rw [hfq]
        exact pyMinRow_mem fq0 qrest
      have hqmem : rowValues s.queue (pyMinRow fq0 qrest).row ∈ s.queue :=
        rowValues_mem_of_mem_findall s.queue book_id _ hmem
      have hbound := (find_bounds s.books book_id cell hb).2
      by_cases hlen : 2 < (rowValues s.queue (pyMinRow fq0 qrest).row).length
      · have h5 := update5_eq s.books cell.row hbound "Reserved" "" ""
          ((rowValues s.queue (pyMinRow fq0 qrest).row).getD 2 "")
          (get_student_name s
            ((rowValues s.queue (pyMinRow fq0 qrest).row).getD 2 ""))
        have heq : return_book s book_id student_id now =
            (.promoted ((rowValues s.queue (pyMinRow fq0 qrest).row).getD 2 "")
              (get_student_name s
                ((rowValues s.queue (pyMinRow fq0 qrest).row).getD 2 "")),
             { s with
                 books := s.books.set (cell.row - 1)
                   (writeStatus (rowValues s.books cell.row) "Reserved" "" ""
                     ((rowValues s.queue (pyMinRow fq0 qrest).row).getD 2 "")
                     (get_student_name s
                       ((rowValues s.queue (pyMinRow fq0 qrest).row).getD 2 ""))),
                 queue := delete_rows s.queue (pyMinRow fq0 qrest).row,
                 trans := s.trans ++ [[now, "Return", book_id, student_id]] }) := by
          simp only [return_book, hb, hfq, if_pos hlen, h5]
        rw [heq]
        refine ⟨hs.1, ?_, ?_⟩
        · intro qrow hq
          exact hs.2.1 qrow (List.eraseIdx_subset _ _ hq)
        · intro brow hmem2
          rcases List.mem_or_eq_of_mem_set hmem2 with hold | hnew
          · exact hs.2.2 brow hold
          · rw [hnew]
            exact bookRowInv_reserved _ _ _ (hs.2.1 _ hqmem)
              (get_student_name_ne_empty s _ hs.1)
      · have heq : return_book s book_id student_id now = (.indexError, s) := by
          simp only [return_book, hb, hfq, if_neg hlen]
        rw [heq]
        exact hs

theorem stateWF_enqueue (s : LibState) (book_id student_id queue_id now : String)
    (hs : StateWF s) (hu0 : student_id ≠ "") :
    StateWF (join_queue s book_id student_id queue_id now).2 := by
  cases hb : find s.books book_id with
  | none =>
    rw [join_queue_book_none s book_id student_id queue_id now hb]
    exact hs
  | some cell =>
    rw [join_queue_found s book_id student_id queue_id now cell hb]
    refine ⟨hs.1, ?_, hs.2.2⟩
    intro qrow hq
    rcases List.mem_append.mp hq with hold | hnew
    · exact hs.2.1 qrow hold
    · rw [List.mem_singleton.mp hnew]
      exact hu0

theorem stateWF_runOps (s : LibState) (ops : List Op) (hs : StateWF s)
    (hops : ∀ op ∈ ops, OpWF op) : StateWF (runOps s ops) := by
  induction ops generalizing s with
  | nil => exact hs
  | cons op rest ih =>
    have hstep : StateWF (applyOp s op) := by
      cases op with
      | borrow b u p n =>
        exact stateWF_borrow s b u p n hs (hops _ (List.mem_cons_self _ _))
      | ret b u n => exact stateWF_return s b u n hs
      | enqueue b u q n =>
        exact stateWF_enqueue s b u q n hs (hops _ (List.mem_cons_self _ _))
    exact ih (applyOp s op) hstep (fun o ho => hops o (List.mem_cons_of_mem _ ho))

/-! ### Locating the first match of `find` -/

theorem findAllInRow_shift (q : String) :
    ∀ (row : List String) (r c : Nat),
      findAllInRow q (r + 1) row c =
        (findAllInRow q r row c).map (fun x => ⟨x.row + 1, x.col⟩) := by
  intro row
  induction row with
  | nil => intro r c; rfl
  | cons a rest ih =>
    intro r c
    simp only [findAllInRow, List.map_append, ih r (c + 1)]
    by_cases ha : a = q
    · rw [if_pos ha, if_pos ha]
      rfl
    · rw [if_neg ha, if_neg ha]
      rfl

theorem findAllAux_shift (q : String) :
    ∀ (sheet : Sheet) (r : Nat),
      findAllAux q sheet (r + 1) =
        (findAllAux q sheet r).map (fun x => ⟨x.row + 1, x.col⟩) := by
  intro sheet
  induction sheet with
  | nil => intro r; rfl
  | cons row rest ih =>
    intro r
    simp only [findAllAux, List.map_append, findAllInRow_shift q row r 1, ih (r + 1)]

/-- On a sheet all of whose rows carry `q` only at index `k`, a successful
`find` locates the first row holding `q`, in column `k + 1`. -/
theorem find_onlyAt_decomp (k : Nat) (q : String) :
    ∀ (sheet : Sheet) (cell : Cell),
      (∀ r ∈ sheet, OnlyAtIdx k q r) → find sheet q = some cell →
      ∃ pre row post, sheet = pre ++ row :: post ∧
        cell.row = pre.length + 1 ∧ cell.col = k + 1 ∧
        row[k]? = some q ∧ (∀ r ∈ pre, q ∉ r) := by
  intro sheet
  induction sheet with
  | nil => intro cell _ h; cases h
  | cons row rest ih =>
    intro cell hwf h
    unfold find findall at h
    rw [show findAllAux q (row :: rest) 1 =
        findAllInRow q 1 row 1 ++ findAllAux q rest 2 from rfl,
      findAllInRow_onlyAt q row k (hwf row (List.mem_cons_self _ _)) 1 1] at h
    by_cases hk : row[k]? = some q
    · rw [if_pos hk] at h
      simp only [List.singleton_append, List.head?_cons, Option.some_inj] at h
      refine ⟨[], row, rest, rfl, ?_, ?_, hk, by intro r hr; cases hr⟩
      · rw [← h]
        rfl
      · rw [← h]
    · rw [if_neg hk, List.nil_append] at h
      rw [show (2 : Nat) = 1 + 1 from rfl, findAllAux_shift q rest 1,
        List.head?_map] at h
      cases hc0 : (findAllAux q rest 1).head? with
      | none => rw [hc0] at h; cases h
      | some c0 =>
        rw [hc0] at h
        simp only [Option.map_some', Option.some_inj] at h
        obtain ⟨pre, row2, post, hre, hrow, hcol, hq2, hpre⟩ :=
          ih c0 (fun r hr => hwf r (List.mem_cons_of_mem _ hr)) hc0
        have hrownotmem : q ∉ row := by
          intro hm
          rcases List.mem_iff_getElem?.mp hm with ⟨j, hj⟩
          have := hwf row (List.mem_cons_self _ _) j hj
          rw [this] at hj
          exact hk hj
        refine ⟨row :: pre, row2, post, by rw [hre]; rfl, ?_, ?_, hq2, ?_⟩
        · rw [← h]
          show c0.row + 1 = (row :: pre).length + 1
          simp only [List.length_cons]
          omega
        · rw [← h]
          exact hcol
        · intro r hr
          rcases List.mem_cons.mp hr with h1 | h2
          · rw [h1]; exact hrownotmem
          · exact hpre r h2

/-- `find` on a sheet whose first occurrence of `q` is at the head of a row:
the match is that head cell, column 1. -/
theorem find_head0 (pre post : Sheet) (row : List String) (q : String)
    (hpre : ∀ r ∈ pre, q ∉ r) (hrow : row[0]? = some q) :
    find (pre ++ row :: post) q = some ⟨1 + pre.length, 1⟩ := by
  unfold find findall
  rw [findAllAux_append q pre (row :: post) 1, findAllAux_eq_nil q pre hpre 1,
    List.nil_append]
  cases row with
  | nil => cases hrow
  | cons a tail =>
    have ha : a = q := by
      simpa using hrow
    show (((if a = q then [(⟨1 + pre.length, 1⟩ : Cell)] else []) ++
      findAllInRow q (1 + pre.length) tail 2) ++
      findAllAux q post (1 + pre.length + 1)).head? =
      some (⟨1 + pre.length, 1⟩ : Cell)
    rw [if_pos ha]
    rfl

theorem set_append_cons (pre post : Sheet) (row x : List String) :
    (pre ++ row :: post).set pre.length x = pre ++ x :: post := by
  induction pre with
  | nil => rfl
  | cons y ys ih => simp [List.set, ih]

theorem rowValues_append_cons (pre post : Sheet) (x : List String) :
    rowValues (pre ++ x :: post) (1 + pre.length) = x := by
  unfold rowValues
  have h1 : 1 + pre.length - 1 = pre.length := by omega
  rw [h1, List.getD_eq_getElem?_getD,
    List.getElem?_append_right (Nat.le_refl pre.length), Nat.sub_self]
  simp

theorem getElem?_eq_some_getD (l : List String) (j : Nat) (h : j < l.length) :
    l[j]? = some (l.getD j "") := by
  rw [List.getD_eq_getElem?_getD, List.getElem?_eq_getElem h]
  rfl

/-! ### Claims -/

/-- C4: a borrow with valid credentials of an existing book whose status is
`Borrowed` mutates no state — no Catalog Store update, no Waiting List
change, no Transaction Log append — and returns the negative
"book unavailable, queueing offered" result (`can_queue` hint). -/
theorem C4_borrow_borrowed_rejected_no_mutation (s : LibState)
    (book_id student_id password now : String) (ucell cell : Cell)
    (hu : find s.users student_id = some ucell)
    (hpw : pyStrip password = pyStrip (storedPassword (rowValues s.users ucell.row)))
    (hb : find s.books book_id = some cell)
    (hst : bookStatus (rowValues s.books cell.row) = "Borrowed") :
    borrow_book s book_id student_id password now = (.unavailableCanQueue, s) :=
  borrow_book_borrowed s book_id student_id password now ucell cell hu hpw hb hst

/-- Witness for C4 at a concrete state: `S2` tries to borrow the book `B1`
currently borrowed by `S1`. -/
theorem C4_borrow_borrowed_rejected_no_mutation_witness :
    borrow_book
      ⟨[["B1", "i", "T", "Borrowed", "S1", "Alice", "", ""]],
       [["S1", "Alice", "pw"], ["S2", "Bob", "pw2"]], [], []⟩
      "B1" "S2" "pw2" "t"
    = (.unavailableCanQueue,
       ⟨[["B1", "i", "T", "Borrowed", "S1", "Alice", "", ""]],
        [["S1", "Alice", "pw"], ["S2", "Bob", "pw2"]], [], []⟩) :=
  C4_borrow_borrowed_rejected_no_mutation _ "B1" "S2" "pw2" "t" ⟨2, 1⟩ ⟨1, 1⟩
    (by decide) (by decide) (by decide) (by decide)

/-- C5: a borrow whose requester is absent from the User Directory, or whose
supplied secret (stripped) differs from the stored secret (stripped), or
whose book id is absent from the Catalog Store, terminates immediately with
a failure and performs no mutation at all. -/
theorem C5_validation_failure_no_mutation (s : LibState)
    (book_id student_id password now : String)
    (h : find s.users student_id = none ∨
      (∃ ucell, find s.users student_id = some ucell ∧
        pyStrip password ≠ pyStrip (storedPassword (rowValues s.users ucell.row))) ∨
      find s.books book_id = none) :
    (borrow_book s book_id student_id password now).2 = s ∧
    ((borrow_book s book_id student_id password now).1 = .studentNotFound ∨
     (borrow_book s book_id student_id password now).1 = .wrongPassword ∨
     (borrow_book s book_id student_id password now).1 = .bookNotFound) := by
  cases hu : find s.users student_id with
  | none =>
    rw [borrow_book_user_none s book_id student_id password now hu]
    exact ⟨rfl, Or.inl rfl⟩
  | some ucell =>
    by_cases hpw : pyStrip password = pyStrip (storedPassword (rowValues s.users ucell.row))
    · cases hb : find s.books book_id with
      | none =>
        rw [borrow_book_book_none s book_id student_id password now ucell hu hpw hb]
        exact ⟨rfl, Or.inr (Or.inr rfl)⟩
      | some cell =>
        rcases h with h1 | ⟨ucell2, hu2, hpw2⟩ | h3
        · rw [hu] at h1
          cases h1
        · rw [hu] at hu2
          obtain rfl := Option.some_inj.mp hu2
          exact absurd hpw hpw2
        · rw [hb] at h3
          cases h3
    · rw [borrow_book_wrong_password s book_id student_id password now ucell hu hpw]
      exact ⟨rfl, Or.inr (Or.inl rfl)⟩

/-- Witness for C5 at a concrete state: wrong password for `S1`. -/
theorem C5_validation_failure_no_mutation_witness :
    (borrow_book
      ⟨[["B1", "i", "T", "Available", "", "", "", ""]], [["S1", "Alice", "pw"]],
       [], []⟩ "B1" "S1" "bad" "t").2 =
      ⟨[["B1", "i", "T", "Available", "", "", "", ""]], [["S1", "Alice", "pw"]],
       [], []⟩ ∧
    ((borrow_book
      ⟨[["B1", "i", "T", "Available", "", "", "", ""]], [["S1", "Alice", "pw"]],
       [], []⟩ "B1" "S1" "bad" "t").1 = .studentNotFound ∨
     (borrow_book
      ⟨[["B1", "i", "T", "Available", "", "", "", ""]], [["S1", "Alice", "pw"]],
       [], []⟩ "B1" "S1" "bad" "t").1 = .wrongPassword ∨
     (borrow_book
      ⟨[["B1", "i", "T", "Available", "", "", "", ""]], [["S1", "Alice", "pw"]],
       [], []⟩ "B1" "S1" "bad" "t").1 = .bookNotFound) :=
  C5_validation_failure_no_mutation _ "B1" "S1" "bad" "t"
    (Or.inr (Or.inl ⟨⟨1, 1⟩, by decide, by decide⟩))

/-- C3: a borrow with valid credentials of an existing `Reserved` book is
rejected naming the reservation target when the requester is not that
target, with no mutation; when the requester is the target the borrow
proceeds: status `Borrowed`, holder = requester, both reservation fields
cleared, and a Borrow transaction appended. -/
theorem C3_borrow_reserved (s : LibState)
    (book_id student_id password now : String) (ucell cell : Cell)
    (hu : find s.users student_id = some ucell)
    (hpw : pyStrip password = pyStrip (storedPassword (rowValues s.users ucell.row)))
    (hb : find s.books book_id = some cell)
    (hst : bookStatus (rowValues s.books cell.row) = "Reserved") :
    (student_id ≠ bookNextId (rowValues s.books cell.row) →
      borrow_book s book_id student_id password now =
        (.reservedForOther (bookNextId (rowValues s.books cell.row)), s)) ∧
    (student_id = bookNextId (rowValues s.books cell.row) →
      (borrow_book s book_id student_id password now).1 =
        .success ((rowValues s.books cell.row).getD 2 "") ∧
      (rowValues (borrow_book s book_id student_id password now).2.books
        cell.row).getD 3 "" = "Borrowed" ∧
      (rowValues (borrow_book s book_id student_id password now).2.books
        cell.row).getD 4 "" = student_id ∧
      (rowValues (borrow_book s book_id student_id password now).2.books
        cell.row).getD 6 "" = "" ∧
      (rowValues (borrow_book s book_id student_id password now).2.books
        cell.row).getD 7 "" = "" ∧
      (borrow_book s book_id student_id password now).2.trans =
        s.trans ++ [[now, "Borrow", book_id, student_id]]) := by
  have hbound := (find_bounds s.books book_id cell hb).2
  have hlen : 3 < (rowValues s.books cell.row).length := by
    by_contra hc
    rw [bookStatus, if_neg hc] at hst
    exact absurd hst (by decide)
  constructor
  · intro hne
    exact borrow_book_reserved_other s book_id student_id password now ucell cell
      hu hpw hb hst hne
  · intro heq
    have hnb : bookStatus (rowValues s.books cell.row) ≠ "Borrowed" := by
      rw [hst]
      decide
    have hnr : ¬ (bookStatus (rowValues s.books cell.row) = "Reserved" ∧
        student_id ≠ bookNextId (rowValues s.books cell.row)) := by
      rintro ⟨-, hne⟩
      exact hne heq
    rw [borrow_book_proceed s book_id student_id password now ucell cell
      hu hpw hb hnb hnr]
    obtain ⟨g3, g4, g5, g6, g7⟩ := writeStatus_getD (rowValues s.books cell.row)
      "Borrowed" student_id (get_student_name s student_id) "" ""
    refine ⟨?_, ?_, ?_, ?_, ?_, rfl⟩
    · show (if 2 < (rowValues s.books cell.row).length then
          BorrowOutcome.success ((rowValues s.books cell.row).getD 2 "")
        else BorrowOutcome.indexError) = _
      rw [if_pos (by omega)]
    all_goals
      show (rowValues (s.books.set (cell.row - 1) _) cell.row).getD _ "" = _
    · rw [rowValues_set_self s.books cell.row _ hbound]
      exact g3
    · rw [rowValues_set_self s.books cell.row _ hbound]
      exact g4
    · rw [rowValues_set_self s.books cell.row _ hbound]
      exact g6
    · rw [rowValues_set_self s.books cell.row _ hbound]
      exact g7

/-- Witness for C3 at a concrete state: `B1` is reserved for `S2`; `S3` is
rejected naming `S2`, while `S2` succeeds. -/
theorem C3_borrow_reserved_witness :
    borrow_book
      ⟨[["B1", "i", "T", "Reserved", "", "", "S2", "Bob"]],
       [["S1", "Alice", "pw"], ["S2", "Bob", "pw2"], ["S3", "Carol", "pw3"]],
       [], []⟩ "B1" "S3" "pw3" "t"
      = (.reservedForOther "S2",
         ⟨[["B1", "i", "T", "Reserved", "", "", "S2", "Bob"]],
          [["S1", "Alice", "pw"], ["S2", "Bob", "pw2"], ["S3", "Carol", "pw3"]],
          [], []⟩) ∧
    (borrow_book
      ⟨[["B1", "i", "T", "Reserved", "", "", "S2", "Bob"]],
       [["S1", "Alice", "pw"], ["S2", "Bob", "pw2"], ["S3", "Carol", "pw3"]],
       [], []⟩ "B1" "S2" "pw2" "t").1 = .success "T" := by
  constructor
  · exact (C3_borrow_reserved _ "B1" "S3" "pw3" "t" ⟨3, 1⟩ ⟨1, 1⟩
      (by decide) (by decide) (by decide) (by decide)).1 (by decide)
  · exact ((C3_borrow_reserved _ "B1" "S2" "pw2" "t" ⟨2, 1⟩ ⟨1, 1⟩
      (by decide) (by decide) (by decide) (by decide)).2 (by decide)).1

/-- C1: returning an existing book whose waiting list holds at least one
entry for it promotes the entry with the smallest queue position (the
earliest row), sets the book's status to `Reserved`, clears the holder
fields, sets the reservation fields to the promoted entrant, and removes
exactly that one waiting-list entry, leaving the other entries in their
original relative order. -/
theorem C1_return_promotes_earliest (s : LibState)
    (book_id student_id now : String) (cell : Cell)
    (pre post : Sheet) (row : List String)
    (hfind : find s.books book_id = some cell)
    (hq : s.queue = pre ++ row :: post)
    (hwf : ∀ r ∈ s.queue, (∀ j < r.length, r[j]? = some book_id → j = 1) ∧
      (r[1]? = some book_id → 3 ≤ r.length))
    (hpre : ∀ r ∈ pre, r[1]? ≠ some book_id)
    (hrow : row[1]? = some book_id) :
    return_book s book_id student_id now =
      (.promoted (row.getD 2 "") (get_student_name s (row.getD 2 "")),
       { s with
           books := s.books.set (cell.row - 1)
             (writeStatus (rowValues s.books cell.row) "Reserved" "" ""
               (row.getD 2 "") (get_student_name s (row.getD 2 ""))),
           queue := pre ++ post,
           trans := s.trans ++ [[now, "Return", book_id, student_id]] }) ∧
    (rowValues (return_book s book_id student_id now).2.books cell.row).getD 3 ""
      = "Reserved" ∧
    (rowValues (return_book s book_id student_id now).2.books cell.row).getD 4 ""
      = "" ∧
    (rowValues (return_book s book_id student_id now).2.books cell.row).getD 5 ""
      = "" ∧
    (rowValues (return_book s book_id student_id now).2.books cell.row).getD 6 ""
      = row.getD 2 "" ∧
    (rowValues (return_book s book_id student_id now).2.books cell.row).getD 7 ""
      = get_student_name s (row.getD 2 "") := by
  have hrowmem : row ∈ s.queue := by
    rw [hq]
    exact List.mem_append.mpr (Or.inr (List.mem_cons_self _ _))
  have hpre' : ∀ r ∈ pre, book_id ∉ r := by
    intro r hr hm
    have hrm : r ∈ s.queue := by
      rw [hq]
      exact List.mem_append.mpr (Or.inl hr)
    rcases List.mem_iff_getElem?.mp hm with ⟨j, hj⟩
    have hj1 : j = 1 := by
      by_cases hlt : j < r.length
      · exact (hwf r hrm).1 j hlt hj
      · rw [List.getElem?_eq_none (by omega)] at hj
        cases hj
    rw [hj1] at hj
    exact hpre r hr hj
  have hrowwf : OnlyAtIdx 1 book_id row :=
    (onlyAtIdx_iff 1 book_id row).mpr (hwf row hrowmem).1
  have hlen : 3 ≤ row.length := (hwf row hrowmem).2 hrow
  have heq := return_book_promote s book_id student_id now cell pre post row
    hfind hq hpre' hrowwf hrow hlen
  have hbound := (find_bounds s.books book_id cell hfind).2
  obtain ⟨g3, g4, g5, g6, g7⟩ := writeStatus_getD (rowValues s.books cell.row)
    "Reserved" "" "" (row.getD 2 "") (get_student_name s (row.getD 2 ""))
  rw [heq]
  refine ⟨rfl, ?_, ?_, ?_, ?_, ?_⟩
  all_goals
    show (rowValues (s.books.set (cell.row - 1) _) cell.row).getD _ "" = _
  · rw [rowValues_set_self s.books cell.row _ hbound]
    exact g3
  · rw [rowValues_set_self s.books cell.row _ hbound]
    exact g4
  · rw [rowValues_set_self s.books cell.row _ hbound]
    exact g5
  · rw [rowValues_set_self s.books cell.row _ hbound]
    exact g6
  · rw [rowValues_set_self s.books cell.row _ hbound]
    exact g7

/-- Witness for C1 at a concrete state: `S2` enqueued before `S3`; `S1`
returns `B1`, so `S2` is promoted and only `S3`'s entry remains. -/
theorem C1_return_promotes_earliest_witness :
    return_book
      ⟨[["B1", "i", "T", "Borrowed", "S1", "Alice", "", ""]],
       [["S1", "Alice", "pw"], ["S2", "Bob", "pw2"], ["S3", "Carol", "pw3"]],
       [["Q1", "B1", "S2", "t1"], ["Q2", "B1", "S3", "t2"]], []⟩ "B1" "S1" "t3"
      = (.promoted "S2" "Bob",
         ⟨[["B1", "i", "T", "Reserved", "", "", "S2", "Bob"]],
          [["S1", "Alice", "pw"], ["S2", "Bob", "pw2"], ["S3", "Carol", "pw3"]],
          [["Q2", "B1", "S3", "t2"]], [["t3", "Return", "B1", "S1"]]⟩) ∧
    (rowValues (return_book
      ⟨[["B1", "i", "T", "Borrowed", "S1", "Alice", "", ""]],
       [["S1", "Alice", "pw"], ["S2", "Bob", "pw2"], ["S3", "Carol", "pw3"]],
       [["Q1", "B1", "S2", "t1"], ["Q2", "B1", "S3", "t2"]], []⟩
        "B1" "S1" "t3").2.books 1).getD 3 "" = "Reserved" ∧
    (rowValues (return_book
      ⟨[["B1", "i", "T", "Borrowed", "S1", "Alice", "", ""]],
       [["S1", "Alice", "pw"], ["S2", "Bob", "pw2"], ["S3", "Carol", "pw3"]],
       [["Q1", "B1", "S2", "t1"], ["Q2", "B1", "S3", "t2"]], []⟩
        "B1" "S1" "t3").2.books 1).getD 4 "" = "" ∧
    (rowValues (return_book
      ⟨[["B1", "i", "T", "Borrowed", "S1", "Alice", "", ""]],
       [["S1", "Alice", "pw"], ["S2", "Bob", "pw2"], ["S3", "Carol", "pw3"]],
       [["Q1", "B1", "S2", "t1"], ["Q2", "B1", "S3", "t2"]], []⟩
        "B1" "S1" "t3").2.books 1).getD 5 "" = "" ∧
    (rowValues (return_book
      ⟨[["B1", "i", "T", "Borrowed", "S1", "Alice", "", ""]],
       [["S1", "Alice", "pw"], ["S2", "Bob", "pw2"], ["S3", "Carol", "pw3"]],
       [["Q1", "B1", "S2", "t1"], ["Q2", "B1", "S3", "t2"]], []⟩
        "B1" "S1" "t3").2.books 1).getD 6 "" = "S2" ∧
    (rowValues (return_book
      ⟨[["B1", "i", "T", "Borrowed", "S1", "Alice", "", ""]],
       [["S1", "Alice", "pw"], ["S2", "Bob", "pw2"], ["S3", "Carol", "pw3"]],
       [["Q1", "B1", "S2", "t1"], ["Q2", "B1", "S3", "t2"]], []⟩
        "B1" "S1" "t3").2.books 1).getD 7 "" = "Bob" :=
  C1_return_promotes_earliest _ "B1" "S1" "t3" ⟨1, 1⟩
    [] [["Q2", "B1", "S3", "t2"]] ["Q1", "B1", "S2", "t1"]
    (by decide) (by decide) (by decide) (by decide) (by decide)

/-- C10: `return_book` never inspects the book's status or holder.  In
particular, returning a book that is already `Available` while its waiting
list is non-empty still promotes the earliest waiting entrant to a
reservation, removes that entry, and appends a Return transaction under
whatever student identifier the caller supplies. -/
theorem C10_return_ignores_status (s : LibState)
    (book_id student_id now : String) (cell : Cell)
    (pre post : Sheet) (row : List String)
    (hfind : find s.books book_id = some cell)
    (_hstatus : bookStatus (rowValues s.books cell.row) = "Available")
    (hq : s.queue = pre ++ row :: post)
    (hpre : ∀ r ∈ pre, book_id ∉ r)
    (hrowwf : ∀ j < row.length, row[j]? = some book_id → j = 1)
    (hrow : row[1]? = some book_id)
    (hlen : 3 ≤ row.length) :
    return_book s book_id student_id now =
      (.promoted (row.getD 2 "") (get_student_name s (row.getD 2 "")),
       { s with
           books := s.books.set (cell.row - 1)
             (writeStatus (rowValues s.books cell.row) "Reserved" "" ""
               (row.getD 2 "") (get_student_name s (row.getD 2 ""))),
           queue := pre ++ post,
           trans := s.trans ++ [[now, "Return", book_id, student_id]] }) :=
  return_book_promote s book_id student_id now cell pre post row
    hfind hq hpre ((onlyAtIdx_iff 1 book_id row).mpr hrowwf) hrow hlen

/-- Witness for C10 at a concrete state: `B1` is `Available` with nobody
holding it, yet the return by the unrelated caller `S9` reserves it for the
waiting `S2`. -/
theorem C10_return_ignores_status_witness :
    return_book
      ⟨[["B1", "i", "T", "Available", "", "", "", ""]],
       [["S1", "Alice", "pw"], ["S2", "Bob", "pw2"]],
       [["Q1", "B1", "S2", "t1"]], []⟩ "B1" "S9" "t3"
      = (.promoted "S2" "Bob",
         ⟨[["B1", "i", "T", "Reserved", "", "", "S2", "Bob"]],
          [["S1", "Alice", "pw"], ["S2", "Bob", "pw2"]],
          [], [["t3", "Return", "B1", "S9"]]⟩) :=
  C10_return_ignores_status _ "B1" "S9" "t3" ⟨1, 1⟩ [] [] ["Q1", "B1", "S2", "t1"]
    (by decide) (by decide) (by decide) (by decide) (by decide) (by decide)
    (by decide)

/-- C6: enqueueing on an existing book appends one waiting-list entry for
that book and returns the 1-based count of waiting entries matching that
book identifier after the append. -/
theorem C6_enqueue_position_is_count (s : LibState)
    (book_id student_id queue_id now : String) (cell : Cell)
    (hb : find s.books book_id = some cell)
    (hwf : ∀ r ∈ s.queue, ∀ j < r.length, r[j]? = some book_id → j = 1)
    (hqid : queue_id ≠ book_id) (hsid : student_id ≠ book_id)
    (hnow : now ≠ book_id) :
    join_queue s book_id student_id queue_id now =
      (.success ((s.queue ++ [[queue_id, book_id, student_id, now]]).countP
          (fun r => r[1]? == some book_id)),
       { s with queue := s.queue ++ [[queue_id, book_id, student_id, now]] }) ∧
    1 ≤ (s.queue ++ [[queue_id, book_id, student_id, now]]).countP
          (fun r => r[1]? == some book_id) := by
  have hnewwf : OnlyAtIdx 1 book_id [queue_id, book_id, student_id, now] := by
    intro j hj
    match j with
    | 0 => exact absurd (by simpa using hj) hqid
    | 1 => rfl
    | 2 => exact absurd (by simpa using hj) hsid
    | 3 => exact absurd (by simpa using hj) hnow
    | j + 4 => cases hj
  have hallwf : ∀ r ∈ s.queue ++ [[queue_id, book_id, student_id, now]],
      OnlyAtIdx 1 book_id r := by
    intro r hr
    rcases List.mem_append.mp hr with hold | hnew
    · exact (onlyAtIdx_iff 1 book_id r).mpr (hwf r hold)
    · rw [List.mem_singleton.mp hnew]
      exact hnewwf
  have hcount : (findall (s.queue ++ [[queue_id, book_id, student_id, now]])
      book_id).length =
      (s.queue ++ [[queue_id, book_id, student_id, now]]).countP
        (fun r => r[1]? == some book_id) :=
    findAllAux_length_onlyAt book_id 1 _ hallwf 1
  refine ⟨?_, ?_⟩
  · rw [join_queue_found s book_id student_id queue_id now cell hb, hcount]
  · rw [List.countP_append]
    have h1 : List.countP (fun r => r[1]? == some book_id)
        [[queue_id, book_id, student_id, now]] = 1 := by
      simp [List.countP_cons]
    omega

/-- Witness for C6 at a concrete state: with `S2` already waiting, `S3`
enqueues for `B1` and is reported at position 2. -/
theorem C6_enqueue_position_is_count_witness :
    join_queue
      ⟨[["B1", "i", "T", "Borrowed", "S1", "Alice", "", ""]],
       [["S1", "Alice", "pw"], ["S2", "Bob", "pw2"], ["S3", "Carol", "pw3"]],
       [["Q1", "B1", "S2", "t1"]], []⟩ "B1" "S3" "Q2" "t2"
      = (.success 2,
         ⟨[["B1", "i", "T", "Borrowed", "S1", "Alice", "", ""]],
          [["S1", "Alice", "pw"], ["S2", "Bob", "pw2"], ["S3", "Carol", "pw3"]],
          [["Q1", "B1", "S2", "t1"], ["Q2", "B1", "S3", "t2"]], []⟩) ∧
    1 ≤ 2 :=
  C6_enqueue_position_is_count _ "B1" "S3" "Q2" "t2" ⟨1, 1⟩
    (by decide) (by decide) (by decide) (by decide) (by decide)

/-- C7: borrow is not idempotent.  On a well-formed catalog (the book id
occurs only in the identifier column), whenever a borrow succeeds, repeating
it with the same arguments immediately afterwards is rejected at the status
branch with the `Borrowed`-book negative result, and the second call mutates
nothing. -/
theorem C7_borrow_not_idempotent (s : LibState)
    (book_id student_id password now now2 title : String)
    (hwf : ∀ r ∈ s.books, ∀ j < r.length, r[j]? = some book_id → j = 0)
    (hsucc : (borrow_book s book_id student_id password now).1 = .success title) :
    borrow_book (borrow_book s book_id student_id password now).2
        book_id student_id password now2 =
      (.unavailableCanQueue, (borrow_book s book_id student_id password now).2) := by
  have hwf' : ∀ r ∈ s.books, OnlyAtIdx 0 book_id r :=
    fun r hr => (onlyAtIdx_iff 0 book_id r).mpr (hwf r hr)
  cases hu : find s.users student_id with
  | none =>
    rw [borrow_book_user_none s book_id student_id password now hu] at hsucc
    simp at hsucc
  | some ucell =>
    by_cases hpw : pyStrip password = pyStrip (storedPassword (rowValues s.users ucell.row))
    · cases hb : find s.books book_id with
      | none =>
        rw [borrow_book_book_none s book_id student_id password now ucell hu hpw hb]
          at hsucc
        simp at hsucc
      | some cell =>
        by_cases hst : bookStatus (rowValues s.books cell.row) = "Borrowed"
        · rw [borrow_book_borrowed s book_id student_id password now ucell cell
            hu hpw hb hst] at hsucc
          simp at hsucc
        · by_cases hr : bookStatus (rowValues s.books cell.row) = "Reserved" ∧
            student_id ≠ bookNextId (rowValues s.books cell.row)
          · rw [borrow_book_reserved_other s book_id student_id password now ucell
              cell hu hpw hb hr.1 hr.2] at hsucc
            simp at hsucc
          · have hproc := borrow_book_proceed s book_id student_id password now
              ucell cell hu hpw hb hst hr
            obtain ⟨pre, brow, post, hbdecomp, hcrow, hccol, hbq, hbpre⟩ :=
              find_onlyAt_decomp 0 book_id s.books cell hwf' hb
            have hc1 : cell.row - 1 = pre.length := by omega
            have hrvb : rowValues s.books cell.row = brow := by
              rw [hbdecomp, hcrow]
              have h2 := rowValues_append_cons pre post brow
              rwa [Nat.add_comm 1 pre.length] at h2
            rw [hrvb] at hproc
            have hlen8 := writeStatus_length brow "Borrowed" student_id
              (get_student_name s student_id) "" ""
            have hlow := writeStatus_getD_low brow "Borrowed" student_id
              (get_student_name s student_id) "" "" 0 (by omega)
            have hb0 : brow.getD 0 "" = book_id := by
              rw [List.getD_eq_getElem?_getD, hbq]
              rfl
            have hNR0 : (writeStatus brow "Borrowed" student_id
                (get_student_name s student_id) "" "")[0]? = some book_id := by
              rw [getElem?_eq_some_getD _ 0 (by omega), hlow, hb0]
            have hbooks1 : s.books.set (cell.row - 1)
                (writeStatus brow "Borrowed" student_id
                  (get_student_name s student_id) "" "") =
                pre ++ (writeStatus brow "Borrowed" student_id
                  (get_student_name s student_id) "" "") :: post := by
              rw [hc1]
              conv_lhs => rw [hbdecomp]
              exact set_append_cons pre post brow _
            have hfind2 := find_head0 pre post
              (writeStatus brow "Borrowed" student_id
                (get_student_name s student_id) "" "") book_id hbpre hNR0
            have hrv2 := rowValues_append_cons pre post
              (writeStatus brow "Borrowed" student_id
                (get_student_name s student_id) "" "")
            have hst2 : bookStatus (writeStatus brow "Borrowed" student_id
                (get_student_name s student_id) "" "") = "Borrowed" := by
              unfold bookStatus
              rw [if_pos (by omega)]
              exact (writeStatus_getD brow "Borrowed" student_id
                (get_student_name s student_id) "" "").1
            rw [hproc]
            show borrow_book
              { s with
                  books := s.books.set (cell.row - 1)
                    (writeStatus brow "Borrowed" student_id
                      (get_student_name s student_id) "" ""),
                  trans := s.trans ++ [[now, "Borrow", book_id, student_id]] }
              book_id student_id password now2 = _
            rw [hbooks1]
            exact borrow_book_borrowed _ book_id student_id password now2
              ucell ⟨1 + pre.length, 1⟩ hu hpw hfind2
              (by
                show bookStatus (rowValues (pre ++ _ :: post) (1 + pre.length))
                  = "Borrowed"
                rw [hrv2]
                exact hst2)
    · rw [borrow_book_wrong_password s book_id student_id password now ucell
        hu hpw] at hsucc
      simp at hsucc

/-- Witness for C7 at a concrete state: `S1` borrows the available `B1`;
repeating the call is rejected with the queueing offer and changes nothing. -/
theorem C7_borrow_not_idempotent_witness :
    borrow_book (borrow_book
      ⟨[["B1", "i", "T", "Available", "", "", "", ""]], [["S1", "Alice", "pw"]],
       [], []⟩ "B1" "S1" "pw" "t1").2 "B1" "S1" "pw" "t2"
      = (.unavailableCanQueue, (borrow_book
        ⟨[["B1", "i", "T", "Available", "", "", "", ""]], [["S1", "Alice", "pw"]],
         [], []⟩ "B1" "S1" "pw" "t1").2) :=
  C7_borrow_not_idempotent _ "B1" "S1" "pw" "t1" "t2" "T"
    (by decide) (by decide)

/-- C9, counterexample to the claim as stated: the book row `["B1"]` exists
and its status reads as `"Unknown"`, so the borrow proceeds (the Borrow
transaction is appended), yet the returned result is the generic error from
the `IndexError` raised by `row_data[2]` in the success message — not a
success result. -/
theorem C9_counterexample :
    (borrow_book ⟨[["B1"]], [["S1", "Alice", "pw"]], [], []⟩
      "B1" "S1" "pw" "t").1 = .indexError ∧
    (borrow_book ⟨[["B1"]], [["S1", "Alice", "pw"]], [], []⟩
      "B1" "S1" "pw" "t").2.trans = [["t", "Borrow", "B1", "S1"]] ∧
    (borrow_book ⟨[["B1"]], [["S1", "Alice", "pw"]], [], []⟩
      "B1" "S1" "pw" "t").2.books =
      [["B1", "", "", "Borrowed", "S1", "Alice", "", ""]] := by
  decide

/-- C9 (amended): a borrow with valid credentials of an existing book whose
read status is neither exactly `"Borrowed"` nor exactly `"Reserved"`
(including empty, unrecognized, or `"Unknown"` from a short row) proceeds as
if the book were available: status set to `Borrowed`, holder set to the
requester, reservation fields cleared, Borrow transaction appended.  The
returned result is a success carrying the title when the record row has at
least three cells; for shorter rows the same mutations occur but the
`IndexError` in the success message yields a generic error result instead. -/
theorem C9_other_status_is_borrowable (s : LibState)
    (book_id student_id password now : String) (ucell cell : Cell)
    (hu : find s.users student_id = some ucell)
    (hpw : pyStrip password = pyStrip (storedPassword (rowValues s.users ucell.row)))
    (hb : find s.books book_id = some cell)
    (hnb : bookStatus (rowValues s.books cell.row) ≠ "Borrowed")
    (hnr : bookStatus (rowValues s.books cell.row) ≠ "Reserved") :
    borrow_book s book_id student_id password now =
      ((if 2 < (rowValues s.books cell.row).length then
          .success ((rowValues s.books cell.row).getD 2 "")
        else .indexError),
       { s with
           books := s.books.set (cell.row - 1)
             (writeStatus (rowValues s.books cell.row) "Borrowed" student_id
               (get_student_name s student_id) "" ""),
           trans := s.trans ++ [[now, "Borrow", book_id, student_id]] }) :=
  borrow_book_proceed s book_id student_id password now ucell cell hu hpw hb
    hnb (fun h => hnr h.1)

/-- Witness for the amended C9 at a concrete state: the status cell of `B1`
holds the unrecognized value `"???"`, and `S1`'s borrow succeeds. -/
theorem C9_other_status_is_borrowable_witness :
    borrow_book
      ⟨[["B1", "i", "T", "???", "", "", "", ""]], [["S1", "Alice", "pw"]],
       [], []⟩ "B1" "S1" "pw" "t"
      = (.success "T",
         ⟨[["B1", "i", "T", "Borrowed", "S1", "Alice", "", ""]],
          [["S1", "Alice", "pw"]], [], [["t", "Borrow", "B1", "S1"]]⟩) :=
  C9_other_status_is_borrowable _ "B1" "S1" "pw" "t" ⟨1, 1⟩ ⟨1, 1⟩
    (by decide) (by decide) (by decide) (by decide) (by decide)

/-- C2: starting from a well-formed state (identifiers nonempty, display
names nonempty, and every book row satisfying the invariant), after every
sequence of borrow, return, and enqueue operations with nonempty acting
student ids, every book row still satisfies: status `Borrowed` iff the
current-holder fields are populated, status `Reserved` iff the
reservation-target fields are populated, and never both at once. -/
theorem C2_status_iff_fields_invariant (s : LibState) (ops : List Op)
    (hs : StateWF s) (hops : ∀ op ∈ ops, OpWF op) :
    ∀ brow ∈ (runOps s ops).books,
      ((brow.getD 3 "" = "Borrowed" ↔ holderPopulated brow) ∧
       (brow.getD 3 "" = "Reserved" ↔ reservationPopulated brow) ∧
       ¬ (holderPopulated brow ∧ reservationPopulated brow)) :=
  (stateWF_runOps s ops hs hops).2.2

/-- Witness for C2 at a concrete state, a concrete four-operation run
(borrow, enqueue, return, borrow), and the concrete final book row. -/
theorem C2_status_iff_fields_invariant_witness :
    (["B1", "i", "T", "Borrowed", "S2", "Bob", "", ""].getD 3 "" = "Borrowed" ↔
      holderPopulated ["B1", "i", "T", "Borrowed", "S2", "Bob", "", ""]) ∧
    (["B1", "i", "T", "Borrowed", "S2", "Bob", "", ""].getD 3 "" = "Reserved" ↔
      reservationPopulated ["B1", "i", "T", "Borrowed", "S2", "Bob", "", ""]) ∧
    ¬ (holderPopulated ["B1", "i", "T", "Borrowed", "S2", "Bob", "", ""] ∧
      reservationPopulated ["B1", "i", "T", "Borrowed", "S2", "Bob", "", ""]) :=
  C2_status_iff_fields_invariant
    ⟨[["B1", "i", "T", "Available", "", "", "", ""]],
     [["S1", "Alice", "pw"], ["S2", "Bob", "pw2"]], [], []⟩
    [.borrow "B1" "S1" "pw" "t1", .enqueue "B1" "S2" "Q1" "t2",
     .ret "B1" "S1" "t3", .borrow "B1" "S2" "pw2" "t4"]
    (by decide) (by decide)
    ["B1", "i", "T", "Borrowed", "S2", "Bob", "", ""] (by decide)

end Library
